import Mathlib

/-!
Verification of the rasterization core of `jst_clock.py` (a terminal
analog-clock + CPU/memory-graph display).  The Python source is shallowly
embedded: grids (`List (List Char)`) model the Python lists of single-char
strings, Python list assignment becomes `List.set`, Python `int()` on a
nonnegative quantity becomes `Int.floor`, and the single stateful object
(the two bounded sample histories) is threaded explicitly.
-/

set_option maxRecDepth 4000

/-- A character grid, as built by the renderers (`clock`, `graph` in the
source): a list of rows, each a list of display characters. -/
abbrev Grid := List (List Char)

/-- The blank fill character used when a grid is created. -/
def blankChar : Char := ' '

/-- Read the cell at row `r`, column `c` (blank when out of range). -/
def cell (g : Grid) (r c : ℕ) : Char := (g.getD r []).getD c blankChar

/-- `g[r][c] = ch` for Python row-lists: rewrite row `r` with position `c`
replaced.  `List.set` is a no-op out of range, which is only exercised on
indices the source never produces. -/
def setCell (g : Grid) (r c : ℕ) (ch : Char) : Grid :=
  g.set r ((g.getD r []).set c ch)

/- ---------------- fixed dial / graph parameters (JSTClock.__init__) ----- -/

/-- `self.clock_radius = 5`. -/
def clock_radius : ℕ := 5

/-- `self.clock_width = self.clock_radius * 2 + 3`. -/
def clock_width : ℕ := clock_radius * 2 + 3

/-- `self.clock_height = self.clock_radius * 2 + 3`. -/
def clock_height : ℕ := clock_radius * 2 + 3

/-- `self.center_x = self.clock_width // 2`. -/
def center_x : ℕ := clock_width / 2

/-- `self.center_y = self.clock_height // 2`. -/
def center_y : ℕ := clock_height / 2

/-- `self.graph_width = 40`. -/
def graph_width : ℕ := 40

/-- `self.graph_height = 12`. -/
def graph_height : ℕ := 12

/- ---------------- draw_line (Bresenham) -------------------------------- -/

/-- One fuel-indexed unfolding of the `while True:` loop of `draw_line`.
State: current grid, current `(x, y)` and `error`; the loop parameters
`x2 y2 x_inc y_inc dx dy` and the glyph `ch` are fixed.  Returns `none`
only when the fuel runs out (shown unreachable for the fuel chosen by
`draw_line`). -/
def drawLineAux (ch : Char) (x2 y2 x_inc y_inc dx dy : ℤ) :
    ℕ → Grid → ℤ → ℤ → ℤ → Option Grid
  | 0, _, _, _, _ => none
  | fuel + 1, g, x, y, error =>
    -- if 0 <= y < self.clock_height and 0 <= x < self.clock_width:
    --     clock[y][x] = char
    let g1 := if 0 ≤ y ∧ y < (clock_height : ℤ) ∧ 0 ≤ x ∧ x < (clock_width : ℤ)
      then setCell g y.toNat x.toNat ch else g
    -- if x == x2 and y == y2: break
    if x = x2 ∧ y = y2 then some g1
    else
      -- e2 = 2 * error; both tests read the same e2
      let e2 := 2 * error
      drawLineAux ch x2 y2 x_inc y_inc dx dy fuel g1
        (if e2 > -dy then x + x_inc else x)
        (if e2 < dx then y + y_inc else y)
        ((if e2 > -dy then error - dy else error) + (if e2 < dx then dx else 0))

/-- `draw_line(self, clock, x1, y1, x2, y2, char)`: stamp the Bresenham
line from `(x1, y1)` to `(x2, y2)` into the grid.  The fuel
`|x2-x1| + |y2-y1| + 1` is proved sufficient below, so the `getD g`
default is never taken. -/
def draw_line (g : Grid) (x1 y1 x2 y2 : ℤ) (ch : Char) : Grid :=
  let dx := |x2 - x1|
  let dy := |y2 - y1|
  let x_inc : ℤ := if x1 < x2 then 1 else -1
  let y_inc : ℤ := if y1 < y2 then 1 else -1
  (drawLineAux ch x2 y2 x_inc y_inc dx dy ((dx + dy).toNat + 1) g x1 y1 (dx - dy)).getD g

/-- The all-blank 13×13 grid `create_clock_face` starts from. -/
def blankClock : Grid := List.replicate clock_height (List.replicate clock_width blankChar)

/-- Expected stamp pattern for the horizontal line `(0,0)-(5,0)`:
cells `(0,0) … (5,0)` of row 0 and nothing else. -/
def horizontalExpected : Grid :=
  (List.replicate 6 '━' ++ List.replicate 7 blankChar) :: List.replicate 12 (List.replicate 13 blankChar)

/-- Expected stamp pattern for the vertical line `(0,0)-(0,5)`:
cells `(0,0) … (0,5)` of column 0 and nothing else. -/
def verticalExpected : Grid :=
  List.replicate 6 ('│' :: List.replicate 12 blankChar) ++ List.replicate 7 (List.replicate 13 blankChar)

/-- Spec-side cell trace of the line loop, following the spec's words:
"classic integer Bresenham line: given endpoints `(x1,y1)-(x2,y2)`, step by
unit increments along both axes using an accumulating error term
(`error = dx − dy`, adjusted by `2·error` comparisons against `-dy`/`dx`
each step) until the endpoint is reached".  It returns the visited cells in
order, to be compared with the grid effect of `draw_line`. -/
def bresenhamSpecAux (x2 y2 x_inc y_inc dx dy : ℤ) :
    ℕ → ℤ → ℤ → ℤ → Option (List (ℤ × ℤ))
  | 0, _, _, _ => none
  | fuel + 1, x, y, error =>
    if x = x2 ∧ y = y2 then some [(x, y)]
    else
      let e2 := 2 * error
      (bresenhamSpecAux x2 y2 x_inc y_inc dx dy fuel
        (if e2 > -dy then x + x_inc else x)
        (if e2 < dx then y + y_inc else y)
        ((if e2 > -dy then error - dy else error) + (if e2 < dx then dx else 0))).map
        (fun rest => (x, y) :: rest)

/-- Spec-side cell sequence of the Bresenham line from `(x1,y1)` to `(x2,y2)`. -/
def bresenhamSpec (x1 y1 x2 y2 : ℤ) : Option (List (ℤ × ℤ)) :=
  let dx := |x2 - x1|
  let dy := |y2 - y1|
  let x_inc : ℤ := if x1 < x2 then 1 else -1
  let y_inc : ℤ := if y1 < y2 then 1 else -1
  bresenhamSpecAux x2 y2 x_inc y_inc dx dy ((dx + dy).toNat + 1) x1 y1 (dx - dy)

/-- Stamp a list of `(x, y)` cells into the grid with the same bounds guard
as `draw_line` ("every intermediate cell within grid bounds is stamped"). -/
def stampCells (g : Grid) (pts : List (ℤ × ℤ)) (ch : Char) : Grid :=
  pts.foldl (fun g p =>
    if 0 ≤ p.2 ∧ p.2 < (clock_height : ℤ) ∧ 0 ≤ p.1 ∧ p.1 < (clock_width : ℤ)
    then setCell g p.2.toNat p.1.toNat ch else g) g

/- ---------------- rim pass of create_clock_face ------------------------ -/

/-- Euclidean distance of cell `(i, j)` (row `i`, column `j`) from the dial
center, as computed at lines 186-188 of the source:
`dx = j - center_x; dy = i - center_y; distance = sqrt(dx*dx + dy*dy)`. -/
noncomputable def cell_dist (i j : ℕ) : ℝ :=
  Real.sqrt (((j : ℝ) - center_x) * ((j : ℝ) - center_x) +
    ((i : ℝ) - center_y) * ((i : ℝ) - center_y))

/-- The rim tolerance test applied to a distance `d`:
`abs(distance - (self.clock_radius - 1)) < 0.6`. -/
def rimBand (d : ℝ) : Prop := |d - ((clock_radius : ℝ) - 1)| < 0.6

/-- Cell `(i, j)` is marked as rim by the rim pass. -/
def is_rim (i j : ℕ) : Prop := rimBand (cell_dist i j)

/-- Integer squared distance of cell `(i, j)` from the center. -/
def sqDist (i j : ℕ) : ℤ :=
  ((j : ℤ) - center_x) * ((j : ℤ) - center_x) +
    ((i : ℤ) - center_y) * ((i : ℤ) - center_y)

/-- Executable form of the rim test: `|sqrt n - 4| < 0.6` over the integer
squared distance `n` amounts to `3.4² < n < 4.6²`, i.e. `12 ≤ n ≤ 21`; the
equivalence with `is_rim` is proved in `is_rimb_iff` below. -/
def is_rimb (i j : ℕ) : Bool := decide (12 ≤ sqDist i j ∧ sqDist i j ≤ 21)

/-- The grid produced by the rim pass of `create_clock_face` (lines
183-191): every cell of the blank 13×13 grid whose distance from the center
lies in the tolerance band is set to the rim glyph. -/
def rim_pass : Grid :=
  (List.range clock_height).map (fun i =>
    (List.range clock_width).map (fun j => if is_rimb i j then '●' else blankChar))

/- ---------------- hand angles and endpoints ---------------------------- -/

/-- `hour_angle = (hour % 12) * 30 + minute * 0.5` (line 211); `%` is
Python's integer modulus. -/
def hour_angle (hour minute : ℕ) : ℚ := ((hour % 12 : ℕ) : ℚ) * 30 + (minute : ℚ) * (1 / 2)

/-- `minute_angle = minute * 6` (line 212). -/
def minute_angle (minute : ℕ) : ℚ := minute * 6

/-- `second_angle = second * 6` (line 213). -/
def second_angle (second : ℕ) : ℚ := second * 6

/-- `math.radians`. -/
noncomputable def radiansOf (a : ℝ) : ℝ := a * Real.pi / 180

/-- `t` is the result of Python `int(x)`: truncation toward zero. -/
def truncAt (x : ℝ) (t : ℤ) : Prop := (0 ≤ x → t = ⌊x⌋) ∧ (x < 0 → t = ⌈x⌉)

/-- `p` is the displayed endpoint of a hand of length `len` at dial angle
`angle` (degrees, 12 o'clock = 0, clockwise): the source computes
`x = center_x + int(len * cos(radians(angle - 90)))` and likewise `y` with
`sin` (lines 216-218 and `get_hand_position`). -/
def hand_pos (angle : ℚ) (len : ℝ) (p : ℤ × ℤ) : Prop :=
  ∃ tx ty : ℤ,
    truncAt (len * Real.cos (radiansOf ((angle : ℝ) - 90))) tx ∧
    truncAt (len * Real.sin (radiansOf ((angle : ℝ) - 90))) ty ∧
    p.1 = (center_x : ℤ) + tx ∧ p.2 = (center_y : ℤ) + ty

/- ---------------- bounded sample history ------------------------------- -/

/-- One `deque(maxlen=cap).append(v)`: when the history is full the oldest
(leftmost) sample is evicted. -/
def histAppend (cap : ℕ) (h : List ℚ) (v : ℚ) : List ℚ :=
  if h.length < cap then h ++ [v] else h.drop 1 ++ [v]

/-- The initial history: `for _ in range(self.graph_width): append(0)`
(lines 44-46). -/
def initialHistory : List ℚ :=
  (List.replicate graph_width (0 : ℚ)).foldl (histAppend graph_width) []

/- ---------------- create_graph ----------------------------------------- -/

/-- Python `int(q)` for a rational: truncation toward zero. -/
def intTrunc (q : ℚ) : ℤ := if 0 ≤ q then ⌊q⌋ else ⌈q⌉

/-- The blank `(graph_height+3) × (graph_width+10)` grid (lines 109-112). -/
def blankGraph : Grid :=
  List.replicate (graph_height + 3) (List.replicate (graph_width + 10) blankChar)

/-- Title pass: `for i, char in enumerate(title): if i < len(title):
graph[0][i] = char` (lines 116-118). -/
def putTitle (g : Grid) (title : List Char) : Grid :=
  title.enum.foldl (fun g p => if p.1 < title.length then setCell g 0 p.1 p.2 else g) g

/-- Python `f"{n:3d}"` for `n ≤ 999`: right-justified in 3 columns. -/
def digit3 (n : ℕ) : List Char :=
  if 100 ≤ n then [Nat.digitChar (n / 100), Nat.digitChar (n / 10 % 10), Nat.digitChar (n % 10)]
  else if 10 ≤ n then [blankChar, Nat.digitChar (n / 10), Nat.digitChar (n % 10)]
  else [blankChar, blankChar, Nat.digitChar n]

/-- One Y-axis label: `y_value = 100 - (i * 100 // (graph_height - 1))`,
`y_label = f"{y_value:3d}%"`, chars written at `graph[i+2][j]` for `j < 4`
(lines 121-126). -/
def yLabelRow (g : Grid) (i : ℕ) : Grid :=
  (digit3 (100 - i * 100 / (graph_height - 1)) ++ ['%']).enum.foldl
    (fun g p => if p.1 < 4 then setCell g (i + 2) p.1 p.2 else g) g

/-- All Y-axis labels (lines 121-126). -/
def putLabels (g : Grid) : Grid := (List.range graph_height).foldl yLabelRow g

/-- Vertical axis rule at column 5 (lines 129-130). -/
def putVAxis (g : Grid) : Grid :=
  (List.range graph_height).foldl (fun g i => setCell g (i + 2) 5 '│') g

/-- Horizontal axis rule on row `graph_height + 1` (lines 132-133). -/
def putHAxis (g : Grid) : Grid :=
  (List.range graph_width).foldl (fun g j => setCell g (graph_height + 1) (j + 6) '─') g

/-- The row a sample value is mapped to:
`self.graph_height - int((value / 100) * (self.graph_height - 1)) + 1`
(lines 140-149). -/
def rowOfVal (v : ℚ) : ℤ :=
  (graph_height : ℤ) - intTrunc (v / 100 * ((graph_height : ℚ) - 1)) + 1

/-- Plot the segment for the consecutive sample pair `(data[i-1], data[i])`
(lines 137-172): a single point marker at the later column when the mapped
rows differ by at most one, otherwise a vertical run of `'│'` covering
every row between them at the later column. -/
def plotPair (data : List ℚ) (g : Grid) (i : ℕ) : Grid :=
  let y1 := rowOfVal (data.getD (i - 1) 0)
  let y2 := rowOfVal (data.getD i 0)
  let x2 := i + 6
  if 0 ≤ y1 ∧ y1 < (graph_height : ℤ) + 2 ∧ 0 ≤ y2 ∧ y2 < (graph_height : ℤ) + 2 then
    if (y2 - y1).natAbs ≤ 1 then
      if x2 < graph_width + 6 then setCell g y2.toNat x2 '●' else g
    else
      (List.range' (min y1 y2).toNat ((max y1 y2).toNat + 1 - (min y1 y2).toNat)).foldl
        (fun g y => if y < graph_height + 2 ∧ x2 < graph_width + 6
          then setCell g y x2 '│' else g) g
  else g

/-- The whole plotting loop: `if len(data) > 1: for i in range(1, len(data))`
(lines 136-172).  (The source's `is not None` guards are always true: the
histories hold numbers only.) -/
def plotData (data : List ℚ) (g : Grid) : Grid :=
  if 1 < data.length then (List.range' 1 (data.length - 1)).foldl (plotPair data) g else g

/-- The graph grid after the decoration passes (title, Y labels, the two
axis rules), before any data is plotted. -/
def graphBase (title : List Char) : Grid :=
  putHAxis (putVAxis (putLabels (putTitle blankGraph title)))

/-- The fully drawn graph grid of `create_graph`, before conversion to
strings: title, Y labels, the two axis rules, then the data plot. -/
def graphGrid (title : List Char) (data : List ℚ) : Grid :=
  plotData data (graphBase title)

/-- Well-formedness of a graph grid: `graph_height + 3` rows of
`graph_width + 10` characters each. -/
def GShape (g : Grid) : Prop :=
  g.length = graph_height + 3 ∧
    ∀ r, r < graph_height + 3 → (g.getD r []).length = graph_width + 10

/-- `"".join(row).rstrip()` at the character-list level. -/
def rstripRow (l : List Char) : List Char := (l.reverse.dropWhile (· == blankChar)).reverse

/-- `create_graph(self, data, title, color)`: the returned lines (the color
tag only wraps the title string printed elsewhere and never enters the
grid). -/
def create_graph (data : List ℚ) (title : List Char) : List (List Char) :=
  (graphGrid title data).map rstripRow

/-- `create_graph` as a call on the (by-reference) history: the second
component records the history as the call leaves it.  The source reads
`data` (`len(data)`, `data[i]`) and contains no assignment to it, so the
history is returned unchanged. -/
def create_graphM (data : List ℚ) (title : List Char) : List (List Char) × List ℚ :=
  (create_graph data title, data)

/-- `get_system_stats`: appends the sampled percentages to the two rolling
histories and returns them (lines 97-105); the sampling itself is the
excluded psutil collaborator, so the sampled values are inputs here. -/
def get_system_stats (cpuH memH : List ℚ) (cpu mem : ℚ) :
    (ℚ × ℚ) × List ℚ × List ℚ :=
  ((cpu, mem), histAppend graph_width cpuH cpu, histAppend graph_width memH mem)

/- ---------------- frame composition (display_split_screen) ------------- -/

/-- The fixed separator between panels. -/
def sepStr : String := " │ "

/-- The missing row used when a panel is shorter than the composite. -/
def emptyLine : String := ""

/-- Python `str.ljust(w)`: pad with blanks on the right, never truncate. -/
def ljust (s : String) (w : ℕ) : String :=
  s ++ String.mk (List.replicate (w - s.length) blankChar)

/-- `clock_fixed_height = 15` (line 271). -/
def clock_fixed_height : ℕ := 15

/-- The local `clock_width = 20` of `display_split_screen` (line 290): the
declared width of the clock panel. -/
def clock_panel_width : ℕ := 20

/-- The local `graph_width = 55` of `display_split_screen` (line 291): the
declared width of each graph panel. -/
def graph_panel_width : ℕ := 55

/-- The row loop of `display_split_screen` (lines 294-328): the composite
frame rows.  `max_lines = max(clock_fixed_height, len(cpu_section),
len(memory_section))`; each row is the clock row left-justified to 20,
`" │ "`, the CPU row left-justified to 55, `" │ "`, and the memory row
appended as is.  (Rows past a section's end contribute `""`, which is also
what the source's pre-padding of `clock_section` to 15 rows produces.) -/
def display_rows (clock_section cpu_section memory_section : List String) : List String :=
  (List.range (max (max clock_fixed_height cpu_section.length) memory_section.length)).map
    (fun i =>
      ljust (clock_section.getD i emptyLine) clock_panel_width ++ sepStr ++
      ljust (cpu_section.getD i emptyLine) graph_panel_width ++ sepStr ++
      memory_section.getD i emptyLine)

/- ---------------- concrete inputs used by witnesses -------------------- -/

/-- A one-character panel row. -/
def xLine : String := "x"

/-- Concrete sample list `0, 1, …, n-1` used to exercise the history. -/
def natSamples (n : ℕ) : List ℚ := (List.range n).map (fun (k : ℕ) => (k : ℚ))


/- ======================================================================
   Lemmas.  First a small toolbox about `List.set`/`getD` and grid cells,
   then per-component lemmas, then the claim theorems C1-C10.
   ====================================================================== -/

theorem list_set_of_length_le {α : Type} :
    ∀ (l : List α) (i : ℕ) (a : α), l.length ≤ i → l.set i a = l := by
  intro l
  induction l with
  | nil => intro i a _; rfl
  | cons x t ih =>
    intro i a h
    cases i with
    | zero => simp at h
    | succ i => simp only [List.set]; rw [ih i a (by simpa using h)]

theorem list_getD_set_self {α : Type} :
    ∀ (l : List α) (i : ℕ) (a d : α), i < l.length → (l.set i a).getD i d = a := by
  intro l
  induction l with
  | nil => intro i a d h; simp at h
  | cons x t ih =>
    intro i a d h
    cases i with
    | zero => rfl
    | succ i => simpa using ih i a d (by simpa using h)

theorem list_getD_set_ne {α : Type} :
    ∀ (l : List α) (i j : ℕ) (a d : α), i ≠ j → (l.set i a).getD j d = l.getD j d := by
  intro l
  induction l with
  | nil => intro i j a d _; rfl
  | cons x t ih =>
    intro i j a d hij
    cases i with
    | zero =>
      cases j with
      | zero => exact absurd rfl hij
      | succ j => rfl
    | succ i =>
      cases j with
      | zero => rfl
      | succ j => simpa using ih i j a d (by omega)

theorem list_getD_replicate {α : Type} :
    ∀ (n i : ℕ) (a d : α), i < n → (List.replicate n a).getD i d = a := by
  intro n
  induction n with
  | zero => intro i a d h; omega
  | succ n ih =>
    intro i a d h
    cases i with
    | zero => rfl
    | succ i => simpa [List.replicate] using ih i a d (by omega)

theorem list_getD_map_range {α : Type} (f : ℕ → α) (n i : ℕ) (d : α) :
    ((List.range n).map f).getD i d = if i < n then f i else d := by
  by_cases h : i < n
  · rw [if_pos h, List.getD_eq_getElem _ _ (by simpa using h)]
    simp
  · rw [if_neg h]
    apply List.getD_eq_default
    simpa using Nat.le_of_not_lt h

theorem cell_setCell_eq (g : Grid) (r c : ℕ) (ch : Char)
    (hr : r < g.length) (hc : c < (g.getD r []).length) :
    cell (setCell g r c ch) r c = ch := by
  unfold cell setCell
  rw [list_getD_set_self g r _ [] hr, list_getD_set_self _ c _ _ hc]

theorem cell_setCell_ne (g : Grid) (r c : ℕ) (ch : Char) (r2 c2 : ℕ)
    (h : r ≠ r2 ∨ c ≠ c2) :
    cell (setCell g r c ch) r2 c2 = cell g r2 c2 := by
  unfold cell setCell
  rcases h with h | h
  · rw [list_getD_set_ne g r r2 _ [] h]
  · by_cases hr : r = r2
    · subst hr
      by_cases hlen : r < g.length
      · rw [list_getD_set_self g r _ [] hlen, list_getD_set_ne _ c c2 _ _ h]
      · rw [list_set_of_length_le g r _ (Nat.le_of_not_lt hlen)]
    · rw [list_getD_set_ne g r r2 _ [] hr]

theorem length_setCell (g : Grid) (r c : ℕ) (ch : Char) :
    (setCell g r c ch).length = g.length := by
  unfold setCell; simp

theorem rowlen_setCell (g : Grid) (r c : ℕ) (ch : Char) (r2 : ℕ) :
    ((setCell g r c ch).getD r2 []).length = (g.getD r2 []).length := by
  unfold setCell
  by_cases hr : r = r2
  · subst hr
    by_cases hlen : r < g.length
    · rw [list_getD_set_self g r _ [] hlen]; simp
    · rw [list_set_of_length_le g r _ (Nat.le_of_not_lt hlen)]
  · rw [list_getD_set_ne g r r2 _ [] hr]

theorem foldl_grid_preserve {α : Type} (P : Grid → Prop) (f : Grid → α → Grid) :
    ∀ (l : List α) (g : Grid), (∀ g a, a ∈ l → P g → P (f g a)) → P g →
      P (l.foldl f g) := by
  intro l
  induction l with
  | nil => intro g _ hg; exact hg
  | cons a t ih =>
    intro g hstep hg
    exact ih (f g a) (fun g b hb hgb => hstep g b (by simp [hb]) hgb)
      (hstep g a (by simp) hg)

theorem foldl_grid_frame {α : Type} (f : Grid → α → Grid) (r c : ℕ) :
    ∀ (l : List α) (g : Grid), (∀ g a, a ∈ l → cell (f g a) r c = cell g r c) →
      cell (l.foldl f g) r c = cell g r c := by
  intro l
  induction l with
  | nil => intro g _; rfl
  | cons a t ih =>
    intro g hstep
    rw [List.foldl_cons, ih (f g a) (fun g b hb => hstep g b (by simp [hb]))]
    exact hstep g a (by simp)

theorem GShape_setCell (g : Grid) (r c : ℕ) (ch : Char) (h : GShape g) :
    GShape (setCell g r c ch) := by
  obtain ⟨h1, h2⟩ := h
  exact ⟨by rw [length_setCell, h1], fun r2 hr2 => by rw [rowlen_setCell]; exact h2 r2 hr2⟩

theorem GShape_blankGraph : GShape blankGraph := by
  constructor
  · simp [blankGraph]
  · intro r hr
    unfold blankGraph
    rw [list_getD_replicate _ r _ [] hr]
    simp

/- ---------------- rim lemmas ------------------------------------------- -/

theorem sqDist_cast (i j : ℕ) :
    ((sqDist i j : ℤ) : ℝ) =
      ((j : ℝ) - center_x) * ((j : ℝ) - center_x) +
        ((i : ℝ) - center_y) * ((i : ℝ) - center_y) := by
  unfold sqDist
  push_cast
  ring

theorem sqDist_nonneg (i j : ℕ) : 0 ≤ sqDist i j :=
  add_nonneg (mul_self_nonneg _) (mul_self_nonneg _)

theorem cell_dist_sqrt (i j : ℕ) : cell_dist i j = Real.sqrt ((sqDist i j : ℤ) : ℝ) := by
  unfold cell_dist
  rw [sqDist_cast]

theorem is_rim_iff (i j : ℕ) : is_rim i j ↔ (12 ≤ sqDist i j ∧ sqDist i j ≤ 21) := by
  unfold is_rim rimBand
  rw [cell_dist_sqrt, abs_lt]
  have hN : (0 : ℝ) ≤ ((sqDist i j : ℤ) : ℝ) := by exact_mod_cast sqDist_nonneg i j
  have hc : ((clock_radius : ℝ) - 1) = 4 := by norm_num [clock_radius]
  rw [hc]
  constructor
  · rintro ⟨h1, h2⟩
    have ha : (3.4 : ℝ) < Real.sqrt ((sqDist i j : ℤ) : ℝ) := by linarith
    have hb : Real.sqrt ((sqDist i j : ℤ) : ℝ) < 4.6 := by linarith
    have ha2 : (3.4 : ℝ) ^ 2 < ((sqDist i j : ℤ) : ℝ) :=
      (Real.lt_sqrt (by norm_num)).mp ha
    have hb2 : ((sqDist i j : ℤ) : ℝ) < (4.6 : ℝ) ^ 2 := (Real.sqrt_lt' (by norm_num)).mp hb
    constructor
    · by_contra hle
      have h11 : sqDist i j ≤ 11 := by omega
      have : ((sqDist i j : ℤ) : ℝ) ≤ 11 := by exact_mod_cast h11
      norm_num at ha2
      linarith
    · by_contra hle
      have h22 : 22 ≤ sqDist i j := by omega
      have : (22 : ℝ) ≤ ((sqDist i j : ℤ) : ℝ) := by exact_mod_cast h22
      norm_num at hb2
      linarith
  · rintro ⟨h1, h2⟩
    have h1r : (12 : ℝ) ≤ ((sqDist i j : ℤ) : ℝ) := by exact_mod_cast h1
    have h2r : ((sqDist i j : ℤ) : ℝ) ≤ 21 := by exact_mod_cast h2
    have ha : (3.4 : ℝ) < Real.sqrt ((sqDist i j : ℤ) : ℝ) :=
      (Real.lt_sqrt (by norm_num)).mpr (by norm_num; linarith)
    have hb : Real.sqrt ((sqDist i j : ℤ) : ℝ) < 4.6 :=
      (Real.sqrt_lt' (by norm_num)).mpr (by norm_num; linarith)
    constructor <;> linarith

theorem is_rimb_iff (i j : ℕ) : is_rimb i j = true ↔ is_rim i j := by
  unfold is_rimb
  rw [decide_eq_true_iff, is_rim_iff]

theorem cell_rim_pass (i j : ℕ) (hi : i < clock_height) (hj : j < clock_width) :
    cell rim_pass i j = if is_rimb i j then '●' else blankChar := by
  unfold cell rim_pass
  rw [list_getD_map_range, if_pos hi, list_getD_map_range, if_pos hj]

theorem cell_dist_6_2 : cell_dist 6 2 = 4 := by
  have h : cell_dist 6 2 = Real.sqrt ((16 : ℤ) : ℝ) := by
    rw [cell_dist_sqrt]
    norm_num [sqDist, center_x, center_y, clock_width, clock_height, clock_radius]
  rw [h, show (((16 : ℤ) : ℝ)) = 4 ^ 2 by norm_num, Real.sqrt_sq (by norm_num : (0:ℝ) ≤ 4)]

theorem cell_dist_6_9 : cell_dist 6 9 = 3 := by
  have h : cell_dist 6 9 = Real.sqrt ((9 : ℤ) : ℝ) := by
    rw [cell_dist_sqrt]
    norm_num [sqDist, center_x, center_y, clock_width, clock_height, clock_radius]
  rw [h, show (((9 : ℤ) : ℝ)) = 3 ^ 2 by norm_num, Real.sqrt_sq (by norm_num : (0:ℝ) ≤ 3)]

theorem cell_dist_10_9 : cell_dist 10 9 = 5 := by
  have h : cell_dist 10 9 = Real.sqrt ((25 : ℤ) : ℝ) := by
    rw [cell_dist_sqrt]
    norm_num [sqDist, center_x, center_y, clock_width, clock_height, clock_radius]
  rw [h, show (((25 : ℤ) : ℝ)) = 5 ^ 2 by norm_num, Real.sqrt_sq (by norm_num : (0:ℝ) ≤ 5)]

/- ---------------- history lemmas --------------------------------------- -/

theorem foldl_histAppend (l : List ℚ) :
    ∀ h : List ℚ, h.length ≤ 40 →
      List.foldl (histAppend 40) h l = (h ++ l).drop (h.length + l.length - 40) := by
  induction l with
  | nil =>
    intro h hh
    have e : h.length - 40 = 0 := by omega
    simp [e]
  | cons v t ih =>
    intro h hh
    rw [List.foldl_cons]
    by_cases hlt : h.length < 40
    · rw [show histAppend 40 h v = h ++ [v] by unfold histAppend; rw [if_pos hlt]]
      rw [ih (h ++ [v]) (by simp; omega)]
      have e1 : (h ++ [v]) ++ t = h ++ v :: t := by simp
      have e2 : (h ++ [v]).length + t.length - 40 = h.length + (v :: t).length - 40 := by
        simp
        omega
      rw [e1, e2]
    · rw [show histAppend 40 h v = h.drop 1 ++ [v] by unfold histAppend; rw [if_neg hlt]]
      have h40 : h.length = 40 := by omega
      rw [ih (h.drop 1 ++ [v]) (by simp; omega)]
      have hd : (h.drop 1).length = 39 := by rw [List.length_drop]; omega
      have e1 : (h.drop 1 ++ [v]) ++ t = h.drop 1 ++ v :: t := by simp
      have e2 : (h.drop 1 ++ [v]).length + t.length - 40 = t.length := by
        rw [List.length_append, hd]
        simp
      rw [e1, e2]
      have e3 : h.length + (v :: t).length - 40 = 1 + t.length := by
        rw [List.length_cons]
        omega
      have e4 : (h ++ v :: t).drop (1 + t.length) = ((h ++ v :: t).drop 1).drop t.length := by
        rw [List.drop_drop]
      have e5 : (h ++ v :: t).drop 1 = h.drop 1 ++ v :: t :=
        List.drop_append_of_le_length (by omega)
      rw [e3, e4, e5]

/- ---------------- composer lemmas -------------------------------------- -/

theorem ljust_length (s : String) (w : ℕ) (h : s.length ≤ w) : (ljust s w).length = w := by
  unfold ljust
  rw [String.length_append]
  have hmk : (String.mk (List.replicate (w - s.length) blankChar)).length =
      (List.replicate (w - s.length) blankChar).length := rfl
  rw [hmk, List.length_replicate]
  omega

theorem display_rows_length (p1 p2 p3 : List String) :
    (display_rows p1 p2 p3).length =
      max (max clock_fixed_height p2.length) p3.length := by
  simp [display_rows]

theorem display_rows_getD (p1 p2 p3 : List String) (i : ℕ)
    (hi : i < max (max clock_fixed_height p2.length) p3.length) :
    (display_rows p1 p2 p3).getD i emptyLine =
      ljust (p1.getD i emptyLine) clock_panel_width ++ sepStr ++
      ljust (p2.getD i emptyLine) graph_panel_width ++ sepStr ++
      p3.getD i emptyLine := by
  unfold display_rows
  rw [list_getD_map_range, if_pos hi]

/- ---------------- draw_line lemmas ------------------------------------- -/

theorem drawLineAux_isSome (ch : Char) (x1 y1 dx dy x_inc y_inc : ℤ)
    (hdx : 0 ≤ dx) (hdy : 0 ≤ dy)
    (hxi : x_inc = 1 ∨ x_inc = -1) (hyi : y_inc = 1 ∨ y_inc = -1) :
    ∀ (fuel : ℕ) (A B : ℤ) (g : Grid),
      0 ≤ A → A ≤ dx → 0 ≤ B → B ≤ dy →
      (dx - A + (dy - B)).toNat < fuel →
      (drawLineAux ch (x1 + x_inc * dx) (y1 + y_inc * dy) x_inc y_inc dx dy fuel g
        (x1 + x_inc * A) (y1 + y_inc * B) (dx * (1 + B) - dy * (1 + A))).isSome = true := by
  intro fuel
  induction fuel with
  | zero => intro A B g hA0 hAdx hB0 hBdy hf; omega
  | succ fuel ih =>
    intro A B g hA0 hAdx hB0 hBdy hf
    have hxiz : x_inc ≠ 0 := by rcases hxi with h | h <;> simp [h]
    have hyiz : y_inc ≠ 0 := by rcases hyi with h | h <;> simp [h]
    by_cases hend : (x1 + x_inc * A = x1 + x_inc * dx ∧ y1 + y_inc * B = y1 + y_inc * dy)
    · simp [drawLineAux, hend]
    · have hAiff : x1 + x_inc * A = x1 + x_inc * dx ↔ A = dx := by
        constructor
        · intro h
          exact mul_left_cancel₀ hxiz (by linarith)
        · intro h; rw [h]
      have hBiff : y1 + y_inc * B = y1 + y_inc * dy ↔ B = dy := by
        constructor
        · intro h
          exact mul_left_cancel₀ hyiz (by linarith)
        · intro h; rw [h]
      have hABne : ¬(A = dx ∧ B = dy) := by
        rintro ⟨ha, hb⟩
        exact hend ⟨hAiff.mpr ha, hBiff.mpr hb⟩
      simp only [drawLineAux, if_neg hend]
      by_cases hxc : 2 * (dx * (1 + B) - dy * (1 + A)) > -dy <;>
        by_cases hyc : 2 * (dx * (1 + B) - dy * (1 + A)) < dx
      · -- both axes step
        rw [if_pos hxc, if_pos hyc, if_pos hxc, if_pos hyc]
        have hAlt : A < dx := by
          by_contra hge
          have hA : A = dx := by omega
          have hBne : B ≠ dy := fun h => hABne ⟨hA, h⟩
          have hBlt : B < dy := by omega
          have hkey : (2 * dx) * (1 + B) ≤ (2 * dx) * dy :=
            mul_le_mul_of_nonneg_left (by omega) (by omega)
          rw [hA] at hxc
          nlinarith
        have hBlt : B < dy := by
          by_contra hge
          have hB : B = dy := by omega
          have hAne : A ≠ dx := fun h => hABne ⟨h, hB⟩
          have hAlt : A < dx := by omega
          have hkey : (2 * dy) * (1 + A) ≤ (2 * dy) * dx :=
            mul_le_mul_of_nonneg_left (by omega) (by omega)
          rw [hB] at hyc
          nlinarith
        have ex : x1 + x_inc * A + x_inc = x1 + x_inc * (A + 1) := by ring
        have ey : y1 + y_inc * B + y_inc = y1 + y_inc * (B + 1) := by ring
        have ee : dx * (1 + B) - dy * (1 + A) - dy + dx =
            dx * (1 + (B + 1)) - dy * (1 + (A + 1)) := by ring
        rw [ex, ey, ee]
        exact ih (A + 1) (B + 1) _ (by omega) (by omega) (by omega) (by omega) (by omega)
      · -- only x steps
        rw [if_pos hxc, if_neg hyc, if_pos hxc, if_neg hyc]
        have hAlt : A < dx := by
          by_contra hge
          have hA : A = dx := by omega
          have hBne : B ≠ dy := fun h => hABne ⟨hA, h⟩
          have hBlt : B < dy := by omega
          have hkey : (2 * dx) * (1 + B) ≤ (2 * dx) * dy :=
            mul_le_mul_of_nonneg_left (by omega) (by omega)
          rw [hA] at hxc
          nlinarith
        have ex : x1 + x_inc * A + x_inc = x1 + x_inc * (A + 1) := by ring
        have ee : dx * (1 + B) - dy * (1 + A) - dy + 0 =
            dx * (1 + B) - dy * (1 + (A + 1)) := by ring
        rw [ex, ee]
        exact ih (A + 1) B _ (by omega) (by omega) hB0 hBdy (by omega)
      · -- only y steps
        rw [if_neg hxc, if_pos hyc, if_neg hxc, if_pos hyc]
        have hBlt : B < dy := by
          by_contra hge
          have hB : B = dy := by omega
          have hAne : A ≠ dx := fun h => hABne ⟨h, hB⟩
          have hAlt : A < dx := by omega
          have hkey : (2 * dy) * (1 + A) ≤ (2 * dy) * dx :=
            mul_le_mul_of_nonneg_left (by omega) (by omega)
          rw [hB] at hyc
          nlinarith
        have ey : y1 + y_inc * B + y_inc = y1 + y_inc * (B + 1) := by ring
        have ee : dx * (1 + B) - dy * (1 + A) + dx =
            dx * (1 + (B + 1)) - dy * (1 + A) := by ring
        rw [ey, ee]
        exact ih A (B + 1) _ hA0 hAdx (by omega) (by omega) (by omega)
      · -- neither test fires: only possible at the endpoint
        exfalso
        have h1 : 2 * (dx * (1 + B) - dy * (1 + A)) ≤ -dy := not_lt.mp hxc
        have h2 : dx ≤ 2 * (dx * (1 + B) - dy * (1 + A)) := not_lt.mp hyc
        have h3 : dx ≤ -dy := le_trans h2 h1
        have hdx0 : dx = 0 := by omega
        have hdy0 : dy = 0 := by omega
        exact hABne ⟨by omega, by omega⟩

theorem draw_line_total (g : Grid) (x1 y1 x2 y2 : ℤ) (ch : Char) :
    (drawLineAux ch x2 y2 (if x1 < x2 then 1 else -1) (if y1 < y2 then 1 else -1)
      |x2 - x1| |y2 - y1| ((|x2 - x1| + |y2 - y1|).toNat + 1) g x1 y1
      (|x2 - x1| - |y2 - y1|)).isSome = true := by
  have hx2 : x2 = x1 + (if x1 < x2 then (1 : ℤ) else -1) * |x2 - x1| := by
    by_cases h : x1 < x2
    · rw [if_pos h, abs_of_nonneg (by omega : (0 : ℤ) ≤ x2 - x1)]; ring
    · rw [if_neg h, abs_of_nonpos (by omega : x2 - x1 ≤ 0)]; ring
  have hy2 : y2 = y1 + (if y1 < y2 then (1 : ℤ) else -1) * |y2 - y1| := by
    by_cases h : y1 < y2
    · rw [if_pos h, abs_of_nonneg (by omega : (0 : ℤ) ≤ y2 - y1)]; ring
    · rw [if_neg h, abs_of_nonpos (by omega : y2 - y1 ≤ 0)]; ring
  have h := drawLineAux_isSome ch x1 y1 |x2 - x1| |y2 - y1|
    (if x1 < x2 then 1 else -1) (if y1 < y2 then 1 else -1)
    (abs_nonneg _) (abs_nonneg _)
    (by by_cases h : x1 < x2 <;> simp [h]) (by by_cases h : y1 < y2 <;> simp [h])
    ((|x2 - x1| + |y2 - y1|).toNat + 1) 0 0 g le_rfl (abs_nonneg _) le_rfl (abs_nonneg _)
    (by omega)
  rw [← hx2, ← hy2] at h
  simpa using h

theorem drawLineAux_eq_stamp (ch : Char) (x2 y2 x_inc y_inc dx dy : ℤ) :
    ∀ (fuel : ℕ) (g : Grid) (x y e : ℤ),
      drawLineAux ch x2 y2 x_inc y_inc dx dy fuel g x y e =
        (bresenhamSpecAux x2 y2 x_inc y_inc dx dy fuel x y e).map
          (fun pts => stampCells g pts ch) := by
  intro fuel
  induction fuel with
  | zero => intro g x y e; rfl
  | succ fuel ih =>
    intro g x y e
    by_cases hend : x = x2 ∧ y = y2
    · simp [drawLineAux, bresenhamSpecAux, hend, stampCells]
    · simp only [drawLineAux, bresenhamSpecAux, if_neg hend]
      rw [ih, Option.map_map]
      exact congrArg (fun f => Option.map f _) (funext fun pts => by simp [stampCells])

theorem drawLineAux_frame (ch : Char) (x2 y2 x_inc y_inc dx dy : ℤ) :
    ∀ (fuel : ℕ) (g : Grid) (x y e : ℤ) (g2 : Grid),
      drawLineAux ch x2 y2 x_inc y_inc dx dy fuel g x y e = some g2 →
      g2.length = g.length ∧ (∀ r, (g2.getD r []).length = (g.getD r []).length) ∧
        (∀ r c, clock_height ≤ r ∨ clock_width ≤ c → cell g2 r c = cell g r c) := by
  intro fuel
  induction fuel with
  | zero => intro g x y e g2 h; simp [drawLineAux] at h
  | succ fuel ih =>
    intro g x y e g2 h
    simp only [drawLineAux] at h
    have hg1 : ∀ g1 : Grid,
        g1 = (if 0 ≤ y ∧ y < (clock_height : ℤ) ∧ 0 ≤ x ∧ x < (clock_width : ℤ)
          then setCell g y.toNat x.toNat ch else g) →
        g1.length = g.length ∧ (∀ r, (g1.getD r []).length = (g.getD r []).length) ∧
          (∀ r c, clock_height ≤ r ∨ clock_width ≤ c → cell g1 r c = cell g r c) := by
      intro g1 hg1
      by_cases hb : 0 ≤ y ∧ y < (clock_height : ℤ) ∧ 0 ≤ x ∧ x < (clock_width : ℤ)
      · rw [hg1, if_pos hb]
        refine ⟨length_setCell _ _ _ _, fun r => rowlen_setCell _ _ _ _ _, ?_⟩
        intro r c hrc
        apply cell_setCell_ne
        obtain ⟨hy0, hyh, hx0, hxw⟩ := hb
        rcases hrc with hr | hc
        · left; omega
        · right; omega
      · rw [hg1, if_neg hb]
        exact ⟨rfl, fun r => rfl, fun r c _ => rfl⟩
    by_cases hend : x = x2 ∧ y = y2
    · rw [if_pos hend] at h
      have hg2 := Option.some.inj h
      have := hg1 _ rfl
      rw [hg2] at this
      exact this
    · rw [if_neg hend] at h
      have h1 := hg1 _ rfl
      have h2 := ih _ _ _ _ _ h
      obtain ⟨ha1, ha2, ha3⟩ := h1
      obtain ⟨hb1, hb2, hb3⟩ := h2
      refine ⟨hb1.trans ha1, fun r => (hb2 r).trans (ha2 r), fun r c hrc =>
        (hb3 r c hrc).trans (ha3 r c hrc)⟩

/- ---------------- claim theorems --------------------------------------- -/

/-- C1: `draw_line` stamps exactly the cell sequence of the classic integer
Bresenham loop described by the spec (`bresenhamSpec`), and in particular
the horizontal line `(0,0)-(5,0)` stamps exactly the cells `(0,0)…(5,0)`
and the vertical line `(0,0)-(0,5)` stamps exactly `(0,0)…(0,5)`. -/
theorem C1_draw_line_bresenham :
    (∀ (g : Grid) (x1 y1 x2 y2 : ℤ) (ch : Char), ∃ pts : List (ℤ × ℤ),
      bresenhamSpec x1 y1 x2 y2 = some pts ∧
        draw_line g x1 y1 x2 y2 ch = stampCells g pts ch) ∧
    draw_line blankClock 0 0 5 0 '━' = horizontalExpected ∧
    draw_line blankClock 0 0 0 5 '│' = verticalExpected := by
  refine ⟨?_, by decide, by decide⟩
  intro g x1 y1 x2 y2 ch
  have htot := draw_line_total g x1 y1 x2 y2 ch
  have heq := drawLineAux_eq_stamp ch x2 y2 (if x1 < x2 then 1 else -1)
    (if y1 < y2 then 1 else -1) |x2 - x1| |y2 - y1|
    ((|x2 - x1| + |y2 - y1|).toNat + 1) g x1 y1 (|x2 - x1| - |y2 - y1|)
  rw [heq] at htot
  cases hspec : bresenhamSpecAux x2 y2 (if x1 < x2 then 1 else -1)
      (if y1 < y2 then 1 else -1) |x2 - x1| |y2 - y1|
      ((|x2 - x1| + |y2 - y1|).toNat + 1) x1 y1 (|x2 - x1| - |y2 - y1|) with
  | none => rw [hspec] at htot; simp at htot
  | some pts =>
    refine ⟨pts, ?_, ?_⟩
    · simpa [bresenhamSpec] using hspec
    · simp only [draw_line]
      rw [heq, hspec]
      rfl

/-- C9: the `draw_line` loop reaches its endpoint within
`|x2-x1| + |y2-y1| + 1` iterations for every pair of integer endpoints (the
fuelled loop never runs out), and a degenerate line with start = end still
stamps the single center cell. -/
theorem C9_draw_line_terminates :
    (∀ (g : Grid) (x1 y1 x2 y2 : ℤ) (ch : Char),
      (drawLineAux ch x2 y2 (if x1 < x2 then 1 else -1) (if y1 < y2 then 1 else -1)
        |x2 - x1| |y2 - y1| ((|x2 - x1| + |y2 - y1|).toNat + 1) g x1 y1
        (|x2 - x1| - |y2 - y1|)).isSome = true) ∧
    cell (draw_line blankClock 6 6 6 6 '━') 6 6 = '━' :=
  ⟨fun g x1 y1 x2 y2 ch => draw_line_total g x1 y1 x2 y2 ch, by decide⟩

/-- C8: for every pair of integer endpoints, in or out of the grid,
`draw_line` preserves the grid's dimensions and leaves every cell outside
`[0, clock_height) × [0, clock_width)` untouched (out-of-range stamps are
silently skipped, and the function is total so no error is raised). -/
theorem C8_draw_line_bounds :
    ∀ (g : Grid) (x1 y1 x2 y2 : ℤ) (ch : Char),
      (draw_line g x1 y1 x2 y2 ch).length = g.length ∧
      (∀ r, ((draw_line g x1 y1 x2 y2 ch).getD r []).length = (g.getD r []).length) ∧
      (∀ r c, clock_height ≤ r ∨ clock_width ≤ c →
        cell (draw_line g x1 y1 x2 y2 ch) r c = cell g r c) := by
  intro g x1 y1 x2 y2 ch
  simp only [draw_line]
  cases haux : drawLineAux ch x2 y2 (if x1 < x2 then 1 else -1)
      (if y1 < y2 then 1 else -1) |x2 - x1| |y2 - y1|
      ((|x2 - x1| + |y2 - y1|).toNat + 1) g x1 y1 (|x2 - x1| - |y2 - y1|) with
  | none => exact ⟨rfl, fun r => rfl, fun r c _ => rfl⟩
  | some g2 =>
    have h := drawLineAux_frame ch x2 y2 (if x1 < x2 then 1 else -1)
      (if y1 < y2 then 1 else -1) |x2 - x1| |y2 - y1| _ g x1 y1 _ g2 haux
    simpa using h

/-- Witness for C8 at a concrete out-of-grid line: dimensions are
preserved and the cell at row `clock_height` is untouched. -/
theorem C8_draw_line_bounds_witness :
    (draw_line blankClock (-3) (-2) 20 9 '━').length = blankClock.length ∧
    cell (draw_line blankClock (-3) (-2) 20 9 '━') 13 5 = cell blankClock 13 5 :=
  ⟨(C8_draw_line_bounds blankClock (-3) (-2) 20 9 '━').1,
   (C8_draw_line_bounds blankClock (-3) (-2) 20 9 '━').2.2 13 5 (Or.inl (by decide))⟩

/-- C3: the hand angles are `hour = (hour mod 12)*30 + minute*0.5`,
`minute = minute*6`, `second = second*6` degrees, and for every hour
`h < 12` with minute = 0 the hour angle is exactly `h*30`, so the hour
hand's endpoint relation coincides with the one at angle `h*30` (center
plus `0.4·radius` times (cos, sin) of the angle minus 90°, truncated). -/
theorem C3_hand_angles :
    (∀ h m : ℕ, hour_angle h m = ((h % 12 : ℕ) : ℚ) * 30 + (m : ℚ) * (1 / 2)) ∧
    (∀ m : ℕ, minute_angle m = (m : ℚ) * 6) ∧
    (∀ s : ℕ, second_angle s = (s : ℚ) * 6) ∧
    (∀ h : ℕ, h < 12 → hour_angle h 0 = (h : ℚ) * 30 ∧
      ∀ p : ℤ × ℤ, hand_pos (hour_angle h 0) ((clock_radius : ℝ) * 0.4) p ↔
        hand_pos ((h : ℚ) * 30) ((clock_radius : ℝ) * 0.4) p) := by
  refine ⟨fun h m => rfl, fun m => rfl, fun s => rfl, ?_⟩
  intro h hh
  have hang : hour_angle h 0 = (h : ℚ) * 30 := by
    unfold hour_angle
    rw [Nat.mod_eq_of_lt hh]
    push_cast
    ring
  exact ⟨hang, fun p => by rw [hang]⟩

/-- Witness for C3 at hour 7: the hour angle with minute 0 is exactly 210°. -/
theorem C3_hand_angles_witness : (7 : ℕ) < 12 ∧ hour_angle 7 0 = ((7 : ℕ) : ℚ) * 30 :=
  ⟨by norm_num, (C3_hand_angles.2.2.2 7 (by norm_num)).1⟩

/-- C2 fails as stated: with `radius` the program's dial radius
`clock_radius = 5`, the cell `(6, 2)` lies at distance exactly
`radius - 1.0` from the center yet IS marked as rim by the rim pass
(the code centers the band at `clock_radius - 1`, not `clock_radius`). -/
theorem C2_rim_counterexample :
    cell_dist 6 2 = (clock_radius : ℝ) - 1 ∧ is_rim 6 2 ∧ cell rim_pass 6 2 = '●' := by
  refine ⟨?_, ?_, by decide⟩
  · rw [cell_dist_6_2]; norm_num [clock_radius]
  · rw [is_rim_iff]; decide

/-- C2 amended: the rim band is centered at `clock_radius - 1`: any
distance exactly `(clock_radius - 1) ± 0.5` lies inside the tolerance band,
and every grid cell at distance exactly `(clock_radius - 1) ± 1.0` is not
marked as rim. -/
theorem C2_rim_band_amended :
    (∀ d : ℝ, d = ((clock_radius : ℝ) - 1) + 0.5 ∨ d = ((clock_radius : ℝ) - 1) - 0.5 →
      rimBand d) ∧
    (∀ i j : ℕ, i < clock_height → j < clock_width →
      cell_dist i j = ((clock_radius : ℝ) - 1) + 1 ∨
        cell_dist i j = ((clock_radius : ℝ) - 1) - 1 →
      cell rim_pass i j ≠ '●') := by
  constructor
  · rintro d (rfl | rfl)
    · unfold rimBand
      rw [show ((clock_radius : ℝ) - 1) + 0.5 - ((clock_radius : ℝ) - 1) = 0.5 by ring]
      rw [abs_of_nonneg (by norm_num)]
      norm_num
    · unfold rimBand
      rw [show ((clock_radius : ℝ) - 1) - 0.5 - ((clock_radius : ℝ) - 1) = -0.5 by ring]
      rw [abs_of_nonpos (by norm_num)]
      norm_num
  · intro i j hi hj hdist
    rw [cell_rim_pass i j hi hj]
    have hSR : (0 : ℝ) ≤ ((sqDist i j : ℤ) : ℝ) := by exact_mod_cast sqDist_nonneg i j
    have hsq : sqDist i j = 25 ∨ sqDist i j = 9 := by
      rcases hdist with hd | hd
      · left
        have h5 : cell_dist i j = 5 := by rw [hd]; norm_num [clock_radius]
        have h25 : ((sqDist i j : ℤ) : ℝ) = 25 := by
          calc ((sqDist i j : ℤ) : ℝ) = Real.sqrt ((sqDist i j : ℤ) : ℝ) ^ 2 :=
                (Real.sq_sqrt hSR).symm
            _ = 5 ^ 2 := by rw [← cell_dist_sqrt, h5]
            _ = 25 := by norm_num
        exact_mod_cast h25
      · right
        have h3 : cell_dist i j = 3 := by rw [hd]; norm_num [clock_radius]
        have h9 : ((sqDist i j : ℤ) : ℝ) = 9 := by
          calc ((sqDist i j : ℤ) : ℝ) = Real.sqrt ((sqDist i j : ℤ) : ℝ) ^ 2 :=
                (Real.sq_sqrt hSR).symm
            _ = 3 ^ 2 := by rw [← cell_dist_sqrt, h3]
            _ = 9 := by norm_num
        exact_mod_cast h9
    have hnr : ¬ (is_rimb i j = true) := by
      rw [is_rimb_iff, is_rim_iff]
      rcases hsq with h | h <;> rw [h] <;> omega
    rw [if_neg (by simpa using hnr)]
    decide

/-- Witness for C2 amended: the band contains `(clock_radius-1) + 0.5`, and
cell `(10, 9)` at distance `(clock_radius-1) + 1 = 5` is not marked. -/
theorem C2_rim_band_amended_witness :
    rimBand (((clock_radius : ℝ) - 1) + 0.5) ∧ cell rim_pass 10 9 ≠ '●' :=
  ⟨C2_rim_band_amended.1 _ (Or.inl rfl),
   C2_rim_band_amended.2 10 9 (by decide) (by decide)
     (Or.inl (by rw [cell_dist_10_9]; norm_num [clock_radius]))⟩

/-- C5 fails as stated: with panels of 10/12/8 rows the composite has
`max(15, 12, 8) = 15` rows (the clock slot has fixed height 15), not
`max(10,12,8) = 12`, and a row whose third-panel line is empty is
`20+3+55+3 = 81` characters long, not 136: the third panel is appended
without padding. -/
theorem C5_composer_counterexample :
    (display_rows (List.replicate 10 xLine) (List.replicate 12 xLine)
      (List.replicate 8 xLine)).length = 15 ∧
    ((display_rows (List.replicate 10 xLine) (List.replicate 12 xLine)
      (List.replicate 8 xLine)).getD 11 emptyLine).length = 81 := by
  constructor <;> decide

/-- C5 amended: the composite has `max(15, |p2|, |p3|)` rows; each row is
the first panel's row left-justified to 20, `" │ "`, the second panel's row
left-justified to 55, `" │ "`, and the third panel's row appended without
padding, so its length is `81 +` the third row's length whenever the first
two rows fit their declared widths; missing rows read as `""`, i.e. shorter
panels are blank-padded at the bottom, never at the top. -/
theorem C5_composer_amended :
    ∀ p1 p2 p3 : List String,
      (display_rows p1 p2 p3).length = max (max clock_fixed_height p2.length) p3.length ∧
      (∀ i, i < max (max clock_fixed_height p2.length) p3.length →
        (display_rows p1 p2 p3).getD i emptyLine =
          ljust (p1.getD i emptyLine) clock_panel_width ++ sepStr ++
          ljust (p2.getD i emptyLine) graph_panel_width ++ sepStr ++
          p3.getD i emptyLine) ∧
      (∀ i, i < max (max clock_fixed_height p2.length) p3.length →
        (p1.getD i emptyLine).length ≤ clock_panel_width →
        (p2.getD i emptyLine).length ≤ graph_panel_width →
        ((display_rows p1 p2 p3).getD i emptyLine).length =
          81 + (p3.getD i emptyLine).length) := by
  intro p1 p2 p3
  refine ⟨display_rows_length p1 p2 p3, fun i hi => display_rows_getD p1 p2 p3 i hi, ?_⟩
  intro i hi h1 h2
  rw [display_rows_getD p1 p2 p3 i hi]
  rw [String.length_append, String.length_append, String.length_append,
    String.length_append, ljust_length _ _ h1, ljust_length _ _ h2]
  have hsep : sepStr.length = 3 := by decide
  rw [hsep]
  rfl

/-- Witness for C5 amended at row 11 of the 10/12/8 panels. -/
theorem C5_composer_amended_witness :
    ((display_rows (List.replicate 10 xLine) (List.replicate 12 xLine)
      (List.replicate 8 xLine)).getD 11 emptyLine).length =
      81 + (((List.replicate 8 xLine).getD 11 emptyLine)).length :=
  (C5_composer_amended _ _ _).2.2 11 (by decide) (by decide) (by decide)

/-- C6: a capacity-40 history never exceeds 40 elements under any sequence
of appends from construction, and appending 45 samples leaves exactly the
last 40 in append order (the oldest 5 are evicted). -/
theorem C6_history_capacity :
    (∀ samples : List ℚ, (List.foldl (histAppend graph_width) [] samples).length ≤ graph_width) ∧
    (∀ samples : List ℚ, samples.length = 45 →
      List.foldl (histAppend graph_width) [] samples = samples.drop 5) := by
  constructor
  · intro samples
    show (List.foldl (histAppend 40) [] samples).length ≤ 40
    rw [foldl_histAppend samples [] (by simp)]
    rw [List.length_drop]
    simp
    omega
  · intro samples h45
    show List.foldl (histAppend 40) [] samples = samples.drop 5
    rw [foldl_histAppend samples [] (by simp)]
    simp [h45]

/-- Witness for C6 on the concrete samples `0, …, 44`. -/
theorem C6_history_capacity_witness :
    (natSamples 45).length = 45 ∧
      List.foldl (histAppend graph_width) [] (natSamples 45) = (natSamples 45).drop 5 :=
  ⟨by simp only [natSamples, List.length_map, List.length_range],
   C6_history_capacity.2 (natSamples 45)
     (by simp only [natSamples, List.length_map, List.length_range])⟩

/-- C10: `create_graph` leaves the history it is called on unchanged — the
call returns the history exactly as passed — and only `get_system_stats`
appends to the histories. -/
theorem C10_create_graph_pure :
    (∀ (data : List ℚ) (title : List Char), (create_graphM data title).2 = data) ∧
    (∀ (cpuH memH : List ℚ) (cpu mem : ℚ),
      (get_system_stats cpuH memH cpu mem).2 =
        (histAppend graph_width cpuH cpu, histAppend graph_width memH mem)) :=
  ⟨fun _ _ => rfl, fun _ _ _ _ => rfl⟩

/- ---------------- graph decoration lemmas ------------------------------ -/

theorem GShape_putTitle (g : Grid) (title : List Char) (hg : GShape g) :
    GShape (putTitle g title) := by
  unfold putTitle
  refine foldl_grid_preserve _ _ _ _ ?_ hg
  intro g2 p _ hg2
  split
  · exact GShape_setCell _ _ _ _ hg2
  · exact hg2

theorem putTitle_frame (g : Grid) (title : List Char) (r c : ℕ) (hr : r ≠ 0) :
    cell (putTitle g title) r c = cell g r c := by
  unfold putTitle
  refine foldl_grid_frame _ _ _ _ _ ?_
  intro g2 p _
  split
  · exact cell_setCell_ne _ _ _ _ _ _ (Or.inl (Ne.symm hr))
  · rfl

theorem GShape_yLabelRow (g : Grid) (i : ℕ) (hg : GShape g) : GShape (yLabelRow g i) := by
  unfold yLabelRow
  refine foldl_grid_preserve _ _ _ _ ?_ hg
  intro g2 p _ hg2
  split
  · exact GShape_setCell _ _ _ _ hg2
  · exact hg2

theorem yLabelRow_frame (g : Grid) (i : ℕ) (r c : ℕ) (hc : 4 ≤ c) :
    cell (yLabelRow g i) r c = cell g r c := by
  unfold yLabelRow
  refine foldl_grid_frame _ _ _ _ _ ?_
  intro g2 p _
  split
  · next hlt => exact cell_setCell_ne _ _ _ _ _ _ (Or.inr (by omega))
  · rfl

theorem GShape_putLabels (g : Grid) (hg : GShape g) : GShape (putLabels g) := by
  unfold putLabels
  exact foldl_grid_preserve _ _ _ _ (fun g2 i _ hg2 => GShape_yLabelRow g2 i hg2) hg

theorem putLabels_frame (g : Grid) (r c : ℕ) (hc : 4 ≤ c) :
    cell (putLabels g) r c = cell g r c := by
  unfold putLabels
  exact foldl_grid_frame _ _ _ _ _ (fun g2 i _ => yLabelRow_frame g2 i r c hc)

theorem GShape_putVAxis (g : Grid) (hg : GShape g) : GShape (putVAxis g) := by
  unfold putVAxis
  exact foldl_grid_preserve _ _ _ _ (fun g2 i _ hg2 => GShape_setCell _ _ _ _ hg2) hg

theorem putVAxis_frame (g : Grid) (r c : ℕ) (hc : c ≠ 5) :
    cell (putVAxis g) r c = cell g r c := by
  unfold putVAxis
  exact foldl_grid_frame _ _ _ _ _
    (fun g2 i _ => cell_setCell_ne _ _ _ _ _ _ (Or.inr (Ne.symm hc)))

theorem GShape_putHAxis (g : Grid) (hg : GShape g) : GShape (putHAxis g) := by
  unfold putHAxis
  exact foldl_grid_preserve _ _ _ _ (fun g2 j _ hg2 => GShape_setCell _ _ _ _ hg2) hg

theorem putHAxis_frame (g : Grid) (r c : ℕ) (hr : r ≠ graph_height + 1) :
    cell (putHAxis g) r c = cell g r c := by
  unfold putHAxis
  exact foldl_grid_frame _ _ _ _ _
    (fun g2 j _ => cell_setCell_ne _ _ _ _ _ _ (Or.inl (Ne.symm hr)))

theorem haxis_fold_mem :
    ∀ (l : List ℕ) (g : Grid), GShape g → (∀ k, k ∈ l → k < graph_width) →
      ∀ j, j ∈ l →
        cell (l.foldl (fun g j => setCell g (graph_height + 1) (j + 6) '─') g)
          (graph_height + 1) (j + 6) = '─' := by
  intro l
  induction l with
  | nil => intro g _ _ j hj; simp at hj
  | cons a t ih =>
    intro g hg hl j hj
    rw [List.foldl_cons]
    by_cases hjt : j ∈ t
    · exact ih _ (GShape_setCell _ _ _ _ hg) (fun k hk => hl k (by simp [hk])) j hjt
    · have hja : j = a := by
        rcases List.mem_cons.mp hj with h | h
        · exact h
        · exact absurd h hjt
      subst hja
      rw [foldl_grid_frame _ _ _ t _ (fun g2 k hk =>
        cell_setCell_ne _ _ _ _ _ _ (Or.inr (by
          intro hc
          exact hjt (by
            have : k = j := by omega
            rw [← this]
            exact hk)))) ]
      have hjw : j < graph_width := hl j (by simp)
      have hgh : graph_height = 12 := rfl
      have hgw : graph_width = 40 := rfl
      refine cell_setCell_eq g _ _ _ ?_ ?_
      · rw [hg.1]
        omega
      · rw [hg.2 _ (by omega)]
        omega

theorem putHAxis_row13 (g : Grid) (hg : GShape g) (j : ℕ) (hj : j < graph_width) :
    cell (putHAxis g) (graph_height + 1) (j + 6) = '─' := by
  unfold putHAxis
  exact haxis_fold_mem (List.range graph_width) g hg
    (fun k hk => List.mem_range.mp hk) j (List.mem_range.mpr hj)

theorem cell_blankGraph (r c : ℕ) (hr : r < graph_height + 3) (hc : c < graph_width + 10) :
    cell blankGraph r c = blankChar := by
  unfold cell blankGraph
  rw [list_getD_replicate _ _ _ _ hr, list_getD_replicate _ _ _ _ hc]

theorem GShape_graphBase (title : List Char) : GShape (graphBase title) :=
  GShape_putHAxis _ (GShape_putVAxis _ (GShape_putLabels _
    (GShape_putTitle _ _ GShape_blankGraph)))

theorem cell_graphBase (title : List Char) (y c : ℕ)
    (hy2 : 2 ≤ y) (hy13 : y ≤ graph_height + 1) (hc7 : 6 ≤ c) (hc45 : c ≤ 45) :
    cell (graphBase title) y c = if y = graph_height + 1 then '─' else blankChar := by
  have hgh : graph_height = 12 := rfl
  have hgw : graph_width = 40 := rfl
  unfold graphBase
  by_cases hy : y = graph_height + 1
  · rw [if_pos hy, hy, show c = (c - 6) + 6 by omega]
    exact putHAxis_row13 _
      (GShape_putVAxis _ (GShape_putLabels _ (GShape_putTitle _ _ GShape_blankGraph)))
      (c - 6) (by omega)
  · rw [if_neg hy, putHAxis_frame _ _ _ hy, putVAxis_frame _ _ _ (by omega),
      putLabels_frame _ _ _ (by omega), putTitle_frame _ _ _ _ (by omega)]
    exact cell_blankGraph y c (by omega) (by omega)

/- ---------------- plotting lemmas -------------------------------------- -/

theorem intTrunc_bounds_0_100 (v : ℚ) (h0 : 0 ≤ v) (h100 : v ≤ 100) :
    0 ≤ intTrunc (v / 100 * ((graph_height : ℚ) - 1)) ∧
      intTrunc (v / 100 * ((graph_height : ℚ) - 1)) ≤ 11 := by
  have hgh : ((graph_height : ℚ) - 1) = 11 := by norm_num [graph_height]
  rw [hgh]
  have hq0 : 0 ≤ v / 100 * 11 := by positivity
  rw [intTrunc, if_pos hq0]
  constructor
  · exact Int.floor_nonneg.mpr hq0
  · have hq11 : v / 100 * 11 ≤ 11 := by
      have h1 : v / 100 ≤ 1 := by
        rw [div_le_one (by norm_num : (0:ℚ) < 100)]
        exact h100
      nlinarith
    calc ⌊v / 100 * 11⌋ ≤ ⌊(11:ℚ)⌋ := Int.floor_le_floor hq11
      _ = 11 := by norm_num

theorem rowOfVal_bounds (v : ℚ) (h0 : 0 ≤ v) (h100 : v ≤ 100) :
    2 ≤ rowOfVal v ∧ rowOfVal v ≤ (graph_height : ℤ) + 1 := by
  have h := intTrunc_bounds_0_100 v h0 h100
  have hgh : (graph_height : ℤ) = 12 := rfl
  unfold rowOfVal
  omega

theorem vertRun_cells (c : ℕ) (hc : c < graph_width + 6) :
    ∀ (k a : ℕ) (g : Grid), GShape g → a + k ≤ graph_height + 2 →
      ∀ y : ℕ,
        cell ((List.range' a k).foldl
          (fun g y => if y < graph_height + 2 ∧ c < graph_width + 6
            then setCell g y c '│' else g) g) y c =
          if a ≤ y ∧ y < a + k then '│' else cell g y c := by
  intro k
  induction k with
  | zero =>
    intro a g hg hak y
    have h0 : List.range' a 0 = [] := rfl
    rw [h0, List.foldl_nil, if_neg (by omega)]
  | succ k ih =>
    intro a g hg hak y
    rw [List.range'_succ, List.foldl_cons]
    rw [show (if a < graph_height + 2 ∧ c < graph_width + 6
        then setCell g a c '│' else g) = setCell g a c '│' from if_pos ⟨by omega, hc⟩]
    rw [ih (a + 1) _ (GShape_setCell _ _ _ _ hg) (by omega) y]
    by_cases hy : y = a
    · subst hy
      rw [if_neg (by omega), if_pos (by omega)]
      have hgh : graph_height = 12 := rfl
      have hgw : graph_width = 40 := rfl
      refine cell_setCell_eq g _ _ _ ?_ ?_
      · rw [hg.1]
        omega
      · rw [hg.2 _ (by omega)]
        omega
    · rw [cell_setCell_ne g a c _ y c (Or.inl (by omega))]
      by_cases h1 : a + 1 ≤ y ∧ y < a + 1 + k
      · rw [if_pos h1, if_pos (by omega)]
      · rw [if_neg h1, if_neg (by omega)]

theorem plotPair_frame (data : List ℚ) (g : Grid) (i : ℕ) (r c : ℕ) (hc : c ≠ i + 6) :
    cell (plotPair data g i) r c = cell g r c := by
  simp only [plotPair]
  split_ifs with h1 h2 h3
  · exact cell_setCell_ne _ _ _ _ _ _ (Or.inr (Ne.symm hc))
  · rfl
  · refine foldl_grid_frame _ _ _ _ _ ?_
    intro g2 a _
    split
    · exact cell_setCell_ne _ _ _ _ _ _ (Or.inr (Ne.symm hc))
    · rfl
  · rfl

theorem GShape_plotPair (data : List ℚ) (g : Grid) (i : ℕ) (hg : GShape g) :
    GShape (plotPair data g i) := by
  simp only [plotPair]
  split_ifs with h1 h2 h3
  · exact GShape_setCell _ _ _ _ hg
  · exact hg
  · refine foldl_grid_preserve _ _ _ _ ?_ hg
    intro g2 a _ hg2
    split
    · exact GShape_setCell _ _ _ _ hg2
    · exact hg2
  · exact hg

theorem GShape_plotData (data : List ℚ) (g : Grid) (hg : GShape g) :
    GShape (plotData data g) := by
  unfold plotData
  split
  · exact foldl_grid_preserve _ _ _ _ (fun g2 i _ hg2 => GShape_plotPair data g2 i hg2) hg
  · exact hg

theorem plotPair_near (data : List ℚ) (g : Grid) (i : ℕ)
    (hb1 : 2 ≤ rowOfVal (data.getD (i-1) 0) ∧
      rowOfVal (data.getD (i-1) 0) ≤ (graph_height : ℤ) + 1)
    (hb2 : 2 ≤ rowOfVal (data.getD i 0) ∧
      rowOfVal (data.getD i 0) ≤ (graph_height : ℤ) + 1)
    (hiw : i < graph_width)
    (hnear : (rowOfVal (data.getD i 0) - rowOfVal (data.getD (i-1) 0)).natAbs ≤ 1) :
    plotPair data g i = setCell g (rowOfVal (data.getD i 0)).toNat (i + 6) '●' := by
  have hgh : (graph_height : ℤ) = 12 := rfl
  have hgw : graph_width = 40 := rfl
  simp only [plotPair]
  rw [if_pos ⟨by omega, by omega, by omega, by omega⟩, if_pos hnear, if_pos (by omega)]

theorem plotPair_far (data : List ℚ) (g : Grid) (i : ℕ)
    (hb1 : 2 ≤ rowOfVal (data.getD (i-1) 0) ∧
      rowOfVal (data.getD (i-1) 0) ≤ (graph_height : ℤ) + 1)
    (hb2 : 2 ≤ rowOfVal (data.getD i 0) ∧
      rowOfVal (data.getD i 0) ≤ (graph_height : ℤ) + 1)
    (hfar : 1 < (rowOfVal (data.getD i 0) - rowOfVal (data.getD (i-1) 0)).natAbs) :
    plotPair data g i =
      (List.range' (min (rowOfVal (data.getD (i-1) 0)) (rowOfVal (data.getD i 0))).toNat
        ((max (rowOfVal (data.getD (i-1) 0)) (rowOfVal (data.getD i 0))).toNat + 1 -
          (min (rowOfVal (data.getD (i-1) 0)) (rowOfVal (data.getD i 0))).toNat)).foldl
        (fun g y => if y < graph_height + 2 ∧ i + 6 < graph_width + 6
          then setCell g y (i + 6) '│' else g) g := by
  have hgh : (graph_height : ℤ) = 12 := rfl
  simp only [plotPair]
  rw [if_pos ⟨by omega, by omega, by omega, by omega⟩, if_neg (by omega)]

theorem plotData_split (data : List ℚ) (g : Grid) (i : ℕ)
    (hi0 : 1 ≤ i) (hin : i < data.length) :
    plotData data g =
      (List.range' (i+1) (data.length - 1 - i)).foldl (plotPair data)
        (plotPair data ((List.range' 1 (i-1)).foldl (plotPair data) g) i) := by
  unfold plotData
  rw [if_pos (by omega)]
  have e1 : data.length - 1 = (data.length - i) + (i - 1) := by omega
  have e2 : List.range' 1 (i-1) ++ List.range' (1 + (i-1)) (data.length - i) =
      List.range' 1 ((data.length - i) + (i-1)) :=
    List.range'_append_1 1 (i-1) (data.length - i)
  have e3 : 1 + (i - 1) = i := by omega
  rw [e1, ← e2, e3, show data.length - i = (data.length - 1 - i) + 1 from by omega,
    List.range'_succ, List.foldl_append, List.foldl_cons,
    show data.length - 1 - i + 1 + (i - 1) - i = data.length - 1 - i from by omega]

theorem graphGrid_col (title : List Char) (data : List ℚ) (i : ℕ)
    (hi0 : 1 ≤ i) (hin : i < data.length) (y : ℕ) :
    cell (graphGrid title data) y (i + 6) =
      cell (plotPair data
        ((List.range' 1 (i-1)).foldl (plotPair data) (graphBase title)) i) y (i + 6) := by
  unfold graphGrid
  rw [plotData_split data (graphBase title) i hi0 hin]
  refine foldl_grid_frame _ _ _ _ _ ?_
  intro g2 a ha
  have := List.mem_range'_1.mp ha
  exact plotPair_frame data g2 a y (i + 6) (by omega)

theorem pre_fold_col (title : List Char) (data : List ℚ) (i : ℕ) (y : ℕ) :
    cell ((List.range' 1 (i-1)).foldl (plotPair data) (graphBase title)) y (i + 6) =
      cell (graphBase title) y (i + 6) := by
  refine foldl_grid_frame _ _ _ _ _ ?_
  intro g2 a ha
  have := List.mem_range'_1.mp ha
  exact plotPair_frame data g2 a y (i + 6) (by omega)

theorem GShape_pre_fold (title : List Char) (data : List ℚ) (i : ℕ) :
    GShape ((List.range' 1 (i-1)).foldl (plotPair data) (graphBase title)) :=
  foldl_grid_preserve _ _ _ _ (fun g2 a _ hg2 => GShape_plotPair data g2 a hg2)
    (GShape_graphBase title)

/-- C4 fails as stated: the code maps a value to its row with `int()`
truncation, not `round`.  At value 60, `round((60/100)*11) = 7` so the
claimed row is `12 - 7 + 1 = 6`, but the code computes
`12 - int(6.6) + 1 = 7`: plotting the history `[60, 60]` stamps the marker
at row 7, while the claimed row 6 stays blank. -/
theorem C4_graph_row_counterexample :
    ((graph_height : ℤ) - round ((60 : ℚ) / 100 * ((graph_height : ℚ) - 1)) + 1 = 6) ∧
    rowOfVal 60 = 7 ∧
    cell (graphGrid [] [60, 60]) 7 7 = '●' ∧
    cell (graphGrid [] [60, 60]) 6 7 = blankChar := by
  have hr : rowOfVal 60 = 7 := by norm_num [rowOfVal, intTrunc, graph_height]
  have hg0 : (([60, 60] : List ℚ)).getD 0 0 = 60 := rfl
  have hg1 : (([60, 60] : List ℚ)).getD 1 0 = 60 := rfl
  have hghz : (graph_height : ℤ) = 12 := rfl
  have hb0 : 2 ≤ rowOfVal ((([60, 60] : List ℚ)).getD 0 0) ∧
      rowOfVal ((([60, 60] : List ℚ)).getD 0 0) ≤ (graph_height : ℤ) + 1 := by
    rw [hg0, hr]; omega
  have hb1 : 2 ≤ rowOfVal ((([60, 60] : List ℚ)).getD 1 0) ∧
      rowOfVal ((([60, 60] : List ℚ)).getD 1 0) ≤ (graph_height : ℤ) + 1 := by
    rw [hg1, hr]; omega
  have hnear : (rowOfVal ((([60, 60] : List ℚ)).getD 1 0) -
      rowOfVal ((([60, 60] : List ℚ)).getD 0 0)).natAbs ≤ 1 := by
    rw [hg0, hg1]; omega
  have hpd : plotData [60, 60] (graphBase []) = plotPair [60, 60] (graphBase []) 1 := by
    unfold plotData
    rw [if_pos (by norm_num)]
    rfl
  have hpp := plotPair_near [60, 60] (graphBase []) 1 hb0 hb1 (by norm_num [graph_width]) hnear
  rw [hg1, hr] at hpp
  have hgg : graphGrid [] [60, 60] = setCell (graphBase []) 7 7 '●' := by
    unfold graphGrid
    rw [hpd, hpp]
    rfl
  refine ⟨by norm_num [round_eq, graph_height], hr, ?_, ?_⟩
  · rw [hgg]
    refine cell_setCell_eq _ _ _ _ ?_ ?_
    · rw [(GShape_graphBase []).1]; norm_num [graph_height]
    · rw [(GShape_graphBase []).2 7 (by norm_num [graph_height])]; norm_num [graph_width]
  · rw [hgg, cell_setCell_ne _ _ _ _ _ _ (Or.inl (by norm_num))]
    rw [cell_graphBase [] 6 7 (by norm_num) (by norm_num [graph_height]) (by norm_num)
      (by norm_num), if_neg (by norm_num [graph_height])]

/-- C4 amended: with the mapping `row = graph_height − int((value/100)·
(graph_height−1)) + 1` (truncation toward zero rather than `round`), for
every history of in-range values fitting the graph width: each consecutive
pair touches only its later column; when the two mapped rows differ by at
most one, exactly the later sample's mapped row of that column carries the
point marker and every other plot row shows the untouched background; and
otherwise the column carries a vertical run of the segment glyph covering
exactly every row between the two mapped rows inclusive. -/
theorem C4_graph_plot_amended :
    ∀ (title : List Char) (data : List ℚ),
      (∀ v ∈ data, 0 ≤ v ∧ v ≤ 100) → data.length ≤ graph_width →
      ∀ i, 1 ≤ i → i < data.length →
      (∀ (g : Grid) (r c : ℕ), c ≠ i + 6 → cell (plotPair data g i) r c = cell g r c) ∧
      ((rowOfVal (data.getD i 0) - rowOfVal (data.getD (i-1) 0)).natAbs ≤ 1 →
        cell (graphGrid title data) (rowOfVal (data.getD i 0)).toNat (i+6) = '●' ∧
        ∀ y : ℕ, 2 ≤ y → y ≤ graph_height + 1 → y ≠ (rowOfVal (data.getD i 0)).toNat →
          cell (graphGrid title data) y (i+6) =
            if y = graph_height + 1 then '─' else blankChar) ∧
      (1 < (rowOfVal (data.getD i 0) - rowOfVal (data.getD (i-1) 0)).natAbs →
        ∀ y : ℕ, 2 ≤ y → y ≤ graph_height + 1 →
          cell (graphGrid title data) y (i+6) =
            if (min (rowOfVal (data.getD (i-1) 0)) (rowOfVal (data.getD i 0))).toNat ≤ y ∧
                y ≤ (max (rowOfVal (data.getD (i-1) 0)) (rowOfVal (data.getD i 0))).toNat
              then '│'
              else if y = graph_height + 1 then '─' else blankChar) := by
  intro title data hdata hlen i hi0 hin
  have hgh : graph_height = 12 := rfl
  have hghz : (graph_height : ℤ) = 12 := rfl
  have hgw : graph_width = 40 := rfl
  have hmem1 : data.getD (i-1) 0 ∈ data := by
    rw [List.getD_eq_getElem data 0 (by omega)]
    exact List.getElem_mem _
  have hmem2 : data.getD i 0 ∈ data := by
    rw [List.getD_eq_getElem data 0 (by omega)]
    exact List.getElem_mem _
  have hv1 := hdata _ hmem1
  have hv2 := hdata _ hmem2
  have hb1 := rowOfVal_bounds _ hv1.1 hv1.2
  have hb2 := rowOfVal_bounds _ hv2.1 hv2.2
  have hpreS := GShape_pre_fold title data i
  refine ⟨fun g r c hc => plotPair_frame data g i r c hc, ?_, ?_⟩
  · intro hnear
    have hPP := plotPair_near data
      ((List.range' 1 (i-1)).foldl (plotPair data) (graphBase title)) i hb1 hb2
      (by omega) hnear
    constructor
    · rw [graphGrid_col title data i hi0 hin, hPP]
      refine cell_setCell_eq _ _ _ _ ?_ ?_
      · rw [hpreS.1]; omega
      · rw [hpreS.2 _ (by omega)]; omega
    · intro y hy2 hy13 hyne
      rw [graphGrid_col title data i hi0 hin, hPP,
        cell_setCell_ne _ _ _ _ _ _ (Or.inl (Ne.symm hyne)), pre_fold_col title data i y]
      exact cell_graphBase title y (i+6) hy2 hy13 (by omega) (by omega)
  · intro hfar y hy2 hy13
    have hPP := plotPair_far data
      ((List.range' 1 (i-1)).foldl (plotPair data) (graphBase title)) i hb1 hb2 hfar
    rw [graphGrid_col title data i hi0 hin, hPP]
    have h2min : (2:ℤ) ≤ min (rowOfVal (data.getD (i-1) 0)) (rowOfVal (data.getD i 0)) :=
      le_min hb1.1 hb2.1
    have hmax13 : max (rowOfVal (data.getD (i-1) 0)) (rowOfVal (data.getD i 0)) ≤
        (graph_height : ℤ) + 1 := max_le hb1.2 hb2.2
    have hminmax : min (rowOfVal (data.getD (i-1) 0)) (rowOfVal (data.getD i 0)) ≤
        max (rowOfVal (data.getD (i-1) 0)) (rowOfVal (data.getD i 0)) := min_le_max
    rw [vertRun_cells (i+6) (by omega) _ _ _ hpreS (by omega) y]
    by_cases hy : (min (rowOfVal (data.getD (i-1) 0)) (rowOfVal (data.getD i 0))).toNat ≤ y ∧
        y ≤ (max (rowOfVal (data.getD (i-1) 0)) (rowOfVal (data.getD i 0))).toNat
    · rw [if_pos (by omega), if_pos hy]
    · rw [if_neg (by omega), if_neg hy, pre_fold_col title data i y]
      exact cell_graphBase title y (i+6) hy2 hy13 (by omega) (by omega)

/-- Witness for C4 amended: plotting `[0, 30]` (mapped rows 13 and 10)
draws a vertical run through row 11 at the later column 7. -/
theorem C4_graph_plot_amended_witness :
    cell (graphGrid [] [0, 30]) 11 (1 + 6) = '│' := by
  have e0 : rowOfVal ((([0, 30] : List ℚ)).getD 0 0) = 13 := by
    show rowOfVal 0 = 13
    norm_num [rowOfVal, intTrunc, graph_height]
  have e1 : rowOfVal ((([0, 30] : List ℚ)).getD 1 0) = 10 := by
    show rowOfVal 30 = 10
    norm_num [rowOfVal, intTrunc, graph_height]
  have h := (C4_graph_plot_amended [] [0, 30]
    (by intro v hv; simp at hv; rcases hv with rfl | rfl <;> norm_num)
    (by norm_num [graph_width]) 1 le_rfl (by norm_num)).2.2
    (by rw [e0, e1]; decide) 11 (by norm_num) (by norm_num [graph_height])
  rw [e0, e1] at h
  rw [h, if_pos (by constructor <;> decide)]

/-- C7 fails as stated: the plotting loop stamps only at the LATER column
of each consecutive pair, so the leftmost plot column (column 6, the first
sample's column) never receives a marker: on the zero-filled initial
history it still shows the horizontal-axis glyph, not the point marker. -/
theorem C7_graph_zero_counterexample :
    initialHistory = List.replicate graph_width (0 : ℚ) ∧
    rowOfVal 0 = (graph_height : ℤ) + 1 ∧
    cell (graphGrid [] initialHistory) (graph_height + 1) 6 = '─' := by
  have hinit : initialHistory = List.replicate graph_width (0 : ℚ) := by decide
  refine ⟨hinit, by norm_num [rowOfVal, intTrunc, graph_height], ?_⟩
  have hframe : cell (graphGrid [] initialHistory) (graph_height + 1) 6 =
      cell (graphBase []) (graph_height + 1) 6 := by
    unfold graphGrid plotData
    split
    · refine foldl_grid_frame _ _ _ _ _ ?_
      intro g2 a ha
      have := List.mem_range'_1.mp ha
      exact plotPair_frame initialHistory g2 a _ 6 (by omega)
    · rfl
  rw [hframe]
  unfold graphBase
  have h := putHAxis_row13 (putVAxis (putLabels (putTitle blankGraph [])))
    (GShape_putVAxis _ (GShape_putLabels _ (GShape_putTitle _ _ GShape_blankGraph)))
    0 (by norm_num [graph_width])
  simpa using h

/-- C7 amended: on the zero-filled initial history every plot-area column
EXCEPT the leftmost — columns 7 through 45, the later column of each
consecutive pair — carries the point marker on the bottom plot row
(`graph_height + 1`, the 0-value row), whatever the title. -/
theorem C7_graph_zero_amended :
    ∀ (title : List Char) (c : ℕ), 7 ≤ c → c ≤ 45 →
      cell (graphGrid title initialHistory) (graph_height + 1) c = '●' := by
  intro title c hc7 hc45
  have hinit : initialHistory = List.replicate graph_width (0 : ℚ) := by decide
  have hgw : graph_width = 40 := rfl
  have hgh : graph_height = 12 := rfl
  have hghz : (graph_height : ℤ) = 12 := rfl
  have hci : c = (c - 6) + 6 := by omega
  rw [hci, hinit]
  have hlen : (List.replicate graph_width (0 : ℚ)).length = 40 := by simp [hgw]
  have hget : ∀ k, k < 40 →
      (List.replicate graph_width (0 : ℚ)).getD k 0 = 0 := fun k hk =>
    list_getD_replicate _ _ _ _ (by omega)
  have hr0 : rowOfVal (0 : ℚ) = 13 := by norm_num [rowOfVal, intTrunc, graph_height]
  have hb1 : 2 ≤ rowOfVal ((List.replicate graph_width (0 : ℚ)).getD ((c-6)-1) 0) ∧
      rowOfVal ((List.replicate graph_width (0 : ℚ)).getD ((c-6)-1) 0) ≤
        (graph_height : ℤ) + 1 := by
    rw [hget _ (by omega), hr0]; omega
  have hb2 : 2 ≤ rowOfVal ((List.replicate graph_width (0 : ℚ)).getD (c-6) 0) ∧
      rowOfVal ((List.replicate graph_width (0 : ℚ)).getD (c-6) 0) ≤
        (graph_height : ℤ) + 1 := by
    rw [hget _ (by omega), hr0]; omega
  have hnear : (rowOfVal ((List.replicate graph_width (0 : ℚ)).getD (c-6) 0) -
      rowOfVal ((List.replicate graph_width (0 : ℚ)).getD ((c-6)-1) 0)).natAbs ≤ 1 := by
    rw [hget _ (by omega), hget _ (by omega)]; omega
  rw [graphGrid_col title _ (c-6) (by omega) (by omega) (graph_height + 1)]
  rw [plotPair_near _
    ((List.range' 1 ((c-6)-1)).foldl (plotPair (List.replicate graph_width (0 : ℚ)))
      (graphBase title)) (c-6) hb1 hb2 (by omega) hnear]
  have hrow : (rowOfVal ((List.replicate graph_width (0 : ℚ)).getD (c-6) 0)).toNat =
      graph_height + 1 := by
    rw [hget _ (by omega), hr0]; decide
  rw [hrow]
  have hpreS := GShape_pre_fold title (List.replicate graph_width (0 : ℚ)) (c-6)
  refine cell_setCell_eq _ _ _ _ ?_ ?_
  · rw [hpreS.1]; omega
  · rw [hpreS.2 _ (by omega)]; omega

/-- Witness for C7 amended: column 20 of the bottom plot row carries the
marker. -/
theorem C7_graph_zero_amended_witness :
    cell (graphGrid [] initialHistory) (graph_height + 1) 20 = '●' :=
  C7_graph_zero_amended [] 20 (by norm_num) (by norm_num)
